import Mathlib

/-!
Verification development for the MemoryChatAI repository.

The shipped source under scrutiny is the React frontend: the type
declarations and `App` component in `src/frontend/src/types/index.ts`, the
`ChatWindow` component in `src/frontend/src/components/Chat/ChatWindow.tsx`,
and the `MemoryDashboard` component. The backend memory-orchestration engine
(short-term store, budget allocation, semantic retriever, feedback store,
observability recorder) is not part of the shipped sources; those components
are modelled from the specification and marked as such in their doc comments.
-/

namespace MemoryChat

/-- Closed set of dynamic value kinds standing for the TypeScript `any`
payloads; the spec (section 9) models dynamic maps with a closed set of value
kinds (string, number, boolean, timestamp). -/
inductive Value where
  | str (s : String)
  | num (n : Int)
  | bool (b : Bool)
  | timestamp (t : String)
deriving DecidableEq

/-- Dynamic string-keyed record (`Record<string, any>`), in insertion order. -/
abbrev DynRecord := List (String × Value)

/-- Shallow embedding of one entry of
`ObservabilityData.short_term_memory.messages` (frontend `types/index.ts`). -/
structure STMessage where
  id : String
  role : String
  content : String
  tokens : Int
  timestamp : String
  includedInPrompt : Bool
deriving DecidableEq

/-- Shallow embedding of `ObservabilityData.short_term_memory`. -/
structure ShortTermMemory where
  messages : List STMessage
  summary : Option String
deriving DecidableEq

/-- Shallow embedding of `ObservabilityData.long_term_memory`. -/
structure LongTermMemory where
  preferences : DynRecord
  behavior_patterns : DynRecord
  context : DynRecord
  last_updated : String
deriving DecidableEq

/-- Shallow embedding of one entry of
`ObservabilityData.semantic_memory.relevant_memories`. -/
structure RelevantMemory where
  content : String
  metadata : DynRecord
deriving DecidableEq

/-- Shallow embedding of `ObservabilityData.semantic_memory`. -/
structure SemanticMemory where
  relevant_memories : List RelevantMemory
deriving DecidableEq

/-- Shallow embedding of `ObservabilityData.feedback_memory` (the TypeScript
element type is `any[]`). -/
structure FeedbackMemory where
  corrections : List Value
deriving DecidableEq

/-- Shallow embedding of `ObservabilityData.token_usage`. -/
structure TokenUsage where
  total : Int
  estimated_response : Int
  cost : ℚ
  breakdown : List (String × Int)
deriving DecidableEq

/-- Shallow embedding of one entry of `ObservabilityData.request_trace.steps`. -/
structure TraceStep where
  name : String
  latency_ms : Int
deriving DecidableEq

/-- Shallow embedding of `ObservabilityData.request_trace`. -/
structure RequestTrace where
  steps : List TraceStep
  total_latency_ms : Int
deriving DecidableEq

/-- Shallow embedding of the `ObservabilityData` interface of
`src/frontend/src/types/index.ts`: the observability structure returned per
request and consumed by `MemoryDashboard`. It carries `request_id` in
addition to the six memory/accounting fields. -/
structure ObservabilityData where
  request_id : String
  short_term_memory : ShortTermMemory
  long_term_memory : LongTermMemory
  semantic_memory : SemanticMemory
  feedback_memory : FeedbackMemory
  token_usage : TokenUsage
  request_trace : RequestTrace
deriving DecidableEq

/-- Message roles of the frontend `Message` interface
(`'user' | 'assistant' | 'system'`). -/
inductive Role where
  | user
  | assistant
  | system
deriving DecidableEq

/-- Shallow embedding of the frontend `Message` interface. -/
structure Message where
  id : String
  role : Role
  content : String
  timestamp : String
deriving DecidableEq

/-- Shallow embedding of the frontend `ChatMessageResponse` interface. -/
structure ChatMessageResponse where
  response : String
  conversation_id : String
  message_id : String
  observability : ObservabilityData
deriving DecidableEq

/-- State held by the `App` component via `useState`. -/
structure AppState where
  messages : List Message
  conversationId : Option String
  isLoading : Bool
  observability : Option ObservabilityData
deriving DecidableEq

/-- Shallow embedding of JavaScript `String.prototype.trim` on the standard
whitespace characters: leading and trailing whitespace removed. -/
def trimChars (l : List Char) : List Char :=
  ((l.dropWhile Char.isWhitespace).reverse.dropWhile Char.isWhitespace).reverse

/-- String-level wrapper of `trimChars`, the embedding of `s.trim()`. -/
def jsTrim (s : String) : String :=
  ⟨trimChars s.data⟩

/-- User message built by `handleSendMessage` before the API call
(`id` is `Date.now().toString()`, `timestamp` is `new Date().toISOString()`). -/
def mkUserMessage (content idNow ts : String) : Message :=
  { id := idNow, role := .user, content := content, timestamp := ts }

/-- Assistant message built by `handleSendMessage` from a successful
`chatApi.sendMessage` result. -/
def mkAssistantMessage (result : ChatMessageResponse) (ts : String) : Message :=
  { id := result.message_id, role := .assistant, content := result.response,
    timestamp := ts }

/-- Fixed fallback message appended on the catch path of `handleSendMessage`. -/
def mkErrorMessage (idNow ts : String) : Message :=
  { id := idNow ++ "_error", role := .assistant,
    content := "Sorry, something went wrong. Please try again.", timestamp := ts }

/-- Shallow embedding of `App.handleSendMessage` (frontend `types/index.ts`).
The `apiResult` argument stands for the settled promise of
`chatApi.sendMessage`; the returned boolean records whether that call was
issued at all. `idNow` stands for `Date.now().toString()` and `ts` for
`new Date().toISOString()`. The React functional state updates
`setMessages(prev => [...prev, m])` are modelled as list appends on the
current state. -/
def handleSendMessage (st : AppState) (content : String)
    (apiResult : Except Unit ChatMessageResponse) (idNow ts : String) :
    AppState × Bool :=
  if (jsTrim content).isEmpty then (st, false)
  else
    let st1 : AppState :=
      { st with
          messages := st.messages ++ [mkUserMessage content idNow ts],
          isLoading := true }
    match apiResult with
    | .ok result =>
        ({ st1 with
            messages := st1.messages ++ [mkAssistantMessage result ts],
            conversationId := some result.conversation_id,
            observability := some result.observability,
            isLoading := false }, true)
    | .error _ =>
        ({ st1 with
            messages := st1.messages ++ [mkErrorMessage idNow ts],
            isLoading := false }, true)

/-- Shallow embedding of `ChatWindow.handleSubmit`: the first component is
the message passed to `onSendMessage` (`none` when no call is made), the
second is the new value of the `input` state. The guard is the code's
`if (input.trim() && !isLoading)`. -/
def handleSubmit (input : String) (isLoading : Bool) : Option String × String :=
  if (!(jsTrim input).isEmpty && !isLoading) then (some input, "") else (none, input)

/-- Shallow embedding of the submit button's `disabled` expression in
`ChatWindow`: `!input.trim() || isLoading`. -/
def submitDisabled (input : String) (isLoading : Bool) : Bool :=
  (jsTrim input).isEmpty || isLoading

/-- JavaScript word-character class `\w`: ASCII letters, digits, underscore. -/
def isWordChar (c : Char) : Bool :=
  c.isAlpha || c.isDigit || c == '_'

/-- Embedding of `name.replace(/\b\w/g, l => l.toUpperCase())`: upper-cases
every word character that opens a word, i.e. is at the start of the string or
preceded by a non-word character. `prev` is the preceding character. -/
def capWords (prev : Option Char) : List Char → List Char
  | [] => []
  | c :: cs =>
      let boundary := match prev with
        | none => true
        | some p => !isWordChar p
      let c' := if isWordChar c && boundary then c.toUpper else c
      c' :: capWords (some c) cs

/-- Embedding of the dashboard label transform
`name.replace(/_/g, ' ').replace(/\b\w/g, l => l.toUpperCase())`. -/
def prettifyLabel (s : String) : String :=
  ⟨capWords none (s.data.map (fun c => if c == '_' then ' ' else c))⟩

/-- Embedding of the `tokenData` computation in `MemoryDashboard`:
`Object.entries(data.token_usage.breakdown).map(([name, value]) =>
({name: prettified, value})).filter(d => d.value > 0)`. -/
def tokenData (breakdown : List (String × Int)) : List (String × Int) :=
  (breakdown.map (fun p => (prettifyLabel p.1, p.2))).filter
    (fun p => decide (0 < p.2))

/-- What `MemoryDashboard` renders: the standby placeholder when `data` is
null, otherwise the trace view carrying the token-breakdown dataset. -/
inductive DashboardView where
  | standby
  | traceView (tokenEntries : List (String × Int))
deriving DecidableEq

/-- Shallow embedding of the `MemoryDashboard` component's branching on its
`data` prop: the early return renders the standby placeholder exactly when
`data` is null. -/
def renderMemoryDashboard (data : Option ObservabilityData) : DashboardView :=
  match data with
  | none => .standby
  | some d => .traceView (tokenData d.token_usage.breakdown)

/-- Input-validation failure taxonomy of spec section 7. -/
inductive ValidationFailure where
  | emptyMessage
deriving DecidableEq

/-- Modelled from the spec: the backend orchestrator's input validation
(section 7, `ValidationFailure`: malformed input, e.g. empty message,
rejected immediately with no retry). The backend source is not under src/. -/
def validateTurn (message_text : String) : Except ValidationFailure Unit :=
  if (jsTrim message_text).isEmpty then .error .emptyMessage else .ok ()

/-- Concrete observability value used by witnesses and counterexamples. -/
def sampleObs (rid : String) : ObservabilityData :=
  { request_id := rid
    short_term_memory := { messages := [], summary := none }
    long_term_memory :=
      { preferences := [], behavior_patterns := [], context := [],
        last_updated := "" }
    semantic_memory := { relevant_memories := [] }
    feedback_memory := { corrections := [] }
    token_usage := { total := 0, estimated_response := 0, cost := 0, breakdown := [] }
    request_trace := { steps := [], total_latency_ms := 0 } }

/-- Modelled from the spec: the `Turn` record of the data model (section 3).
The backend ShortTermStore source is not under src/. -/
structure Turn where
  id : String
  role : String
  content : String
  token_count : Nat
  created_at : Nat
  included_in_prompt : Bool
deriving DecidableEq

/-- Modelled from the spec: `ConversationBuffer` (section 3), the live turn
sequence plus the rolling summary. -/
structure ConversationBuffer where
  buffer : List Turn
  summary : Option String
deriving DecidableEq

/-- Default maximum live turn count N (section 3, default 10). -/
def defaultMaxTurns : Nat := 10

/-- Modelled from the spec: naive truncation join used by compaction
(section 4.2) — each folded turn's content is joined into one text block. -/
def joinContents : List Turn → String
  | [] => ""
  | t :: ts => t.content ++ "\n" ++ joinContents ts

/-- Modelled from the spec: folding evicted turns into the rolling summary;
later folds append to, never replace, earlier summary content (section 4.2). -/
def foldSummary (old : Option String) (folded : List Turn) : String :=
  old.getD "" ++ joinContents folded

/-- Modelled from the spec: `ShortTermStore.append` at the level of one
conversation buffer (section 4.2): the turn is added and, if the resulting
length exceeds `maxTurns`, the oldest `(length - maxTurns)` turns are removed
from the live sequence and folded into the summary. -/
def appendTurn (maxTurns : Nat) (cb : ConversationBuffer) (t : Turn) :
    ConversationBuffer :=
  if maxTurns < (cb.buffer ++ [t]).length then
    { buffer := (cb.buffer ++ [t]).drop ((cb.buffer ++ [t]).length - maxTurns),
      summary := some (foldSummary cb.summary
        ((cb.buffer ++ [t]).take ((cb.buffer ++ [t]).length - maxTurns))) }
  else
    { cb with buffer := cb.buffer ++ [t] }

/-- Modelled from the spec: the store over all conversations; a conversation
never written reads as an empty buffer (section 4.2, first-turn case). -/
def ShortTermStore := String → ConversationBuffer

/-- The store with no conversations. -/
def emptyStore : ShortTermStore := fun _ => { buffer := [], summary := none }

/-- Modelled from the spec: `ShortTermStore.window(conversation_id)`. -/
def window (s : ShortTermStore) (c : String) : ConversationBuffer := s c

/-- Modelled from the spec: `ShortTermStore.append(conversation_id, turn)`. -/
def storeAppend (maxTurns : Nat) (s : ShortTermStore) (c : String) (t : Turn) :
    ShortTermStore :=
  fun c' => if c' = c then appendTurn maxTurns (s c) t else s c'

/-- Runs a sequence of append operations against the store. -/
def runAppends (maxTurns : Nat) (s : ShortTermStore) :
    List (String × Turn) → ShortTermStore
  | [] => s
  | (c, t) :: ops => runAppends maxTurns (storeAppend maxTurns s c t) ops

/-- Modelled from the spec: per-request inputs of the budget allocation
algorithm (section 4.6), as token counts: active corrections (oldest first),
the current user turn, the short-term window (highest priority first), the
long-term profile summary, and the ranked semantic matches (best first). The
backend PromptAssembler source is not under src/. -/
structure BudgetInput where
  corrections : List Nat
  currentTurn : Nat
  shortTerm : List Nat
  profile : Nat
  semantic : List Nat
deriving DecidableEq

/-- Mandatory floor of the allocation: all active corrections plus the
current user turn (spec sections 4.6 and 7). -/
def mandatoryFloor (inp : BudgetInput) : Nat :=
  inp.corrections.sum + inp.currentTurn

/-- Longest prefix of the candidate token counts fitting in `budget`: returns
how many items are taken and the tokens they use; lower-priority items are
truncated first (spec section 4.6). -/
def takeFit (budget : Nat) : List Nat → Nat × Nat
  | [] => (0, 0)
  | t :: ts =>
      if t ≤ budget then
        ((takeFit (budget - t) ts).1 + 1, t + (takeFit (budget - t) ts).2)
      else (0, 0)

/-- Outcome of a successful budget allocation: the token mass drawn from each
source and how much of each optional source made it in. -/
structure Allocation where
  correctionsTokens : Nat
  currentTurnTokens : Nat
  shortTermTokens : Nat
  profileTokens : Nat
  semanticTokens : Nat
  shortTermCount : Nat
  profileIncluded : Bool
  semanticCount : Nat
deriving DecidableEq

/-- Total prompt token count of an allocation. -/
def Allocation.total (a : Allocation) : Nat :=
  a.correctionsTokens + a.currentTurnTokens + a.shortTermTokens +
    a.profileTokens + a.semanticTokens

/-- Budget-exhaustion failure taxonomy of spec section 7. -/
inductive BudgetError where
  | budgetExhaustion
deriving DecidableEq

/-- Modelled from the spec: the budget allocation algorithm of section 4.6.
Reserve the mandatory floor (all active corrections, as hard constraints, and
the current user turn); when even the floor cannot fit in `maxWindow`, fail
with `BudgetExhaustionFailure` instead of truncating mandatory content.
Otherwise allocate the remaining budget in fixed priority order: short-term
window first, then the profile summary, then semantic matches, truncating the
lowest-ranked items first. -/
def allocateBudget (maxWindow : Nat) (inp : BudgetInput) :
    Except BudgetError Allocation :=
  if maxWindow < mandatoryFloor inp then .error .budgetExhaustion
  else
    let rem0 := maxWindow - mandatoryFloor inp
    let st := takeFit rem0 inp.shortTerm
    let rem1 := rem0 - st.2
    let prof := if inp.profile ≤ rem1 then (true, inp.profile) else (false, 0)
    let rem2 := rem1 - prof.2
    let sem := takeFit rem2 inp.semantic
    .ok { correctionsTokens := inp.corrections.sum,
          currentTurnTokens := inp.currentTurn,
          shortTermTokens := st.2,
          profileTokens := prof.2,
          semanticTokens := sem.2,
          shortTermCount := st.1,
          profileIncluded := prof.1,
          semanticCount := sem.1 }

/-- Modelled from the spec: a stored semantic record, carrying the owning
user, content, metadata, embedding and creation time (section 3). The backend
SemanticRetriever source is not under src/. -/
structure SemanticRecord where
  user_id : String
  content : String
  metadata : DynRecord
  embedding : List ℚ
  created_at : Nat
deriving DecidableEq

/-- Ranking relation of the retriever: descending similarity, ties broken by
`created_at` descending (section 4.4); `sim` is the similarity of a record to
the current query. -/
def RankedAbove (sim : SemanticRecord → ℚ) (a b : SemanticRecord) : Prop :=
  sim b < sim a ∨ (sim a = sim b ∧ b.created_at ≤ a.created_at)

instance (sim : SemanticRecord → ℚ) : DecidableRel (RankedAbove sim) := fun a b =>
  inferInstanceAs
    (Decidable (sim b < sim a ∨ (sim a = sim b ∧ b.created_at ≤ a.created_at)))

instance (sim : SemanticRecord → ℚ) : IsTotal SemanticRecord (RankedAbove sim) where
  total a b := by
    rcases lt_trichotomy (sim a) (sim b) with h | h | h
    · exact Or.inr (Or.inl h)
    · rcases Nat.le_total b.created_at a.created_at with hc | hc
      · exact Or.inl (Or.inr ⟨h, hc⟩)
      · exact Or.inr (Or.inr ⟨h.symm, hc⟩)
    · exact Or.inl (Or.inl h)

instance (sim : SemanticRecord → ℚ) : IsTrans SemanticRecord (RankedAbove sim) where
  trans a b c hab hbc := by
    rcases hab with hab | ⟨hab, hab'⟩
    · rcases hbc with hbc | ⟨hbc, _⟩
      · exact Or.inl (hbc.trans hab)
      · exact Or.inl (hbc ▸ hab)
    · rcases hbc with hbc | ⟨hbc, hbc'⟩
      · exact Or.inl (hab ▸ hbc)
      · exact Or.inr ⟨hab.trans hbc, le_trans hbc' hab'⟩

/-- Default similarity threshold (section 4.4, default 0.7). -/
def defaultSimilarityThreshold : ℚ := 7 / 10

/-- Modelled from the spec: `SemanticRetriever.query` (section 4.4). `sim`
stands for the external embedding capability composed with the index's
similarity measure against the current query text. Records scoped to the user
and at or above the threshold are ranked by descending similarity, ties
broken by recency, and the best `top_k` are returned. -/
def semanticQuery (store : List SemanticRecord) (user : String)
    (sim : SemanticRecord → ℚ) (top_k : Nat) (threshold : ℚ) :
    List SemanticRecord :=
  ((store.filter
      (fun r => r.user_id == user && decide (threshold ≤ sim r))).insertionSort
    (RankedAbove sim)).take top_k

/-- Modelled from the spec: the `Correction` record (section 3). The backend
FeedbackStore source is not under src/. -/
structure Correction where
  trigger_excerpt : String
  correction_text : String
  created_at : Nat
deriving DecidableEq

/-- Fixed textual marker opening an explicit correction turn (README: use
"Incorrect:" to teach the system). -/
def correctionMarker : String := "Incorrect:"

/-- Modelled from the spec: the detection half of
`FeedbackStore.detect_and_store` (section 4.5): when the turn text opens with
the fixed marker, the correction payload is extracted from the remainder of
the turn (trimmed); otherwise null. -/
def detectCorrection (turn_text : String) (now : Nat) : Option Correction :=
  if correctionMarker.data.isPrefixOf turn_text.data then
    some { trigger_excerpt := turn_text,
           correction_text :=
             ⟨trimChars (turn_text.data.drop correctionMarker.data.length)⟩,
           created_at := now }
  else none

/-- Modelled from the spec: `FeedbackStore.detect_and_store` over the user's
correction list: a detected correction is appended (corrections are
additive), an unmarked turn stores nothing. -/
def detect_and_store (store : List Correction) (turn_text : String) (now : Nat) :
    Option Correction × List Correction :=
  match detectCorrection turn_text now with
  | some c => (some c, store ++ [c])
  | none => (none, store)

/-- Modelled from the spec: events driving the ObservabilityRecorder
(section 4.7). `tick d` advances the wall clock by `d` milliseconds (time
spent inside a pipeline stage); `start` and `stop` bracket a named step. The
backend ObservabilityRecorder source is not under src/. -/
inductive RecEvent where
  | tick (d : Nat)
  | start (name : String)
  | stop (name : String)

/-- Recorder state: the current clock, the stack of open steps with their
start clocks, and the completed steps (most recent first). -/
structure RecState where
  clock : Nat
  pending : List (String × Nat)
  steps : List TraceStep
deriving DecidableEq

/-- Fresh recorder state at clock `c`. -/
def initRecState (c : Nat) : RecState := { clock := c, pending := [], steps := [] }

/-- Removes the most recent pending entry with the given name, returning its
start clock and the remaining pending entries. -/
def takePending (name : String) :
    List (String × Nat) → Option (Nat × List (String × Nat))
  | [] => none
  | p :: ps =>
      if p.1 = name then some (p.2, ps)
      else
        match takePending name ps with
        | some r => some (r.1, p :: r.2)
        | none => none

/-- Modelled from the spec: one recorder transition. `start` pushes the
current clock; `stop` pops the matching pending entry and records the step's
latency as the clock difference; a `stop` without a matching `start` is
ignored. -/
def recStep (s : RecState) : RecEvent → RecState
  | .tick d => { s with clock := s.clock + d }
  | .start n => { s with pending := (n, s.clock) :: s.pending }
  | .stop n =>
      match takePending n s.pending with
      | some r =>
          { s with
              pending := r.2,
              steps :=
                { name := n, latency_ms := (s.clock : Int) - (r.1 : Int) } :: s.steps }
      | none => s

/-- Runs the recorder over a list of events. -/
def recRun (s : RecState) : List RecEvent → RecState
  | [] => s
  | e :: es => recRun (recStep s e) es

/-- Modelled from the spec: `snapshot()` — the frozen `RequestTrace`, with
steps in chronological completion order and `total_latency_ms` fixed,
uniformly for every request, as the sum of the recorded step latencies. -/
def snapshot (s : RecState) : RequestTrace :=
  { steps := s.steps.reverse,
    total_latency_ms := (s.steps.map TraceStep.latency_ms).sum }

/-! Helper lemmas. -/

/-- Concrete application state used by witnesses. -/
def emptyAppState : AppState :=
  { messages := [], conversationId := none, isLoading := false, observability := none }

/-- Concrete successful chat response used by witnesses. -/
def sampleResp : ChatMessageResponse :=
  { response := "ok", conversation_id := "c1", message_id := "m1",
    observability := sampleObs "r1" }

/-- The buffer produced by `appendTurn` never exceeds the turn cap. -/
theorem appendTurn_length_le (maxTurns : Nat) (cb : ConversationBuffer) (t : Turn) :
    (appendTurn maxTurns cb t).buffer.length ≤ maxTurns := by
  unfold appendTurn
  by_cases h : maxTurns < (cb.buffer ++ [t]).length
  · rw [if_pos h]
    simp only [List.length_drop]
    omega
  · rw [if_neg h]
    simp only [List.length_append, List.length_cons, List.length_nil] at h ⊢
    omega

/-- Every buffer reached by a sequence of appends over a bounded store stays
bounded. -/
theorem runAppends_window_le (maxTurns : Nat) (s : ShortTermStore)
    (hs : ∀ c, (s c).buffer.length ≤ maxTurns) (ops : List (String × Turn))
    (c : String) : (runAppends maxTurns s ops c).buffer.length ≤ maxTurns := by
  induction ops generalizing s with
  | nil => exact hs c
  | cons op ops ih =>
      obtain ⟨c', t⟩ := op
      simp only [runAppends]
      apply ih
      intro c''
      simp only [storeAppend]
      by_cases h : c'' = c'
      · simpa [h] using appendTurn_length_le maxTurns (s c') t
      · simpa [h] using hs c''

/-- Trimming a character list yields an infix of it. -/
theorem trimChars_isInfixOfOrig (l : List Char) : trimChars l <:+: l := by
  have h1 : l.dropWhile Char.isWhitespace <:+ l := List.dropWhile_suffix _
  have h3 :
      (l.dropWhile Char.isWhitespace).reverse.dropWhile Char.isWhitespace <:+
        (l.dropWhile Char.isWhitespace).reverse := List.dropWhile_suffix _
  have h2 :
      ((l.dropWhile Char.isWhitespace).reverse.dropWhile Char.isWhitespace).reverse <+:
        l.dropWhile Char.isWhitespace := by
    rw [← List.reverse_suffix]
    simpa using h3
  exact List.IsInfix.trans (List.IsPrefix.isInfix h2) (List.IsSuffix.isInfix h1)

/-- Every folded turn's content appears inside the joined text. -/
theorem content_infix_joinContents (l : List Turn) (t : Turn) (h : t ∈ l) :
    t.content.data <:+: (joinContents l).data := by
  induction l with
  | nil => cases h
  | cons x xs ih =>
      have hdata : (joinContents (x :: xs)).data =
          (x.content ++ "\n").data ++ (joinContents xs).data := by
        simp [joinContents]
      rcases List.mem_cons.mp h with h | h
      · subst h
        refine ⟨[], "\n".data ++ (joinContents xs).data, ?_⟩
        rw [hdata]
        simp
      · rw [hdata]
        exact List.IsInfix.trans (ih h) (List.IsSuffix.isInfix (List.suffix_append _ _))

/-- Every folded turn's content appears inside the rolling summary produced
by a fold. -/
theorem content_infix_foldSummary (old : Option String) (l : List Turn) (t : Turn)
    (h : t ∈ l) : t.content.data <:+: (foldSummary old l).data := by
  have h2 : (foldSummary old l).data =
      (old.getD "").data ++ (joinContents l).data := by
    simp [foldSummary]
  rw [h2]
  exact List.IsInfix.trans (content_infix_joinContents l t h)
    (List.IsSuffix.isInfix (List.suffix_append _ _))

/-- The tokens used by `takeFit` never exceed the given budget. -/
theorem takeFit_used_le (budget : Nat) (l : List Nat) :
    (takeFit budget l).2 ≤ budget := by
  induction l generalizing budget with
  | nil => simp [takeFit]
  | cons t ts ih =>
      unfold takeFit
      by_cases h : t ≤ budget
      · rw [if_pos h]
        have := ih (budget - t)
        show t + (takeFit (budget - t) ts).2 ≤ budget
        omega
      · rw [if_neg h]
        exact Nat.zero_le _

/-- A successful `takePending` returns a start clock present in the pending
list, and keeps only entries of the pending list. -/
theorem takePending_spec (name : String) (l : List (String × Nat))
    (r : Nat × List (String × Nat)) (h : takePending name l = some r) :
    (name, r.1) ∈ l ∧ ∀ p ∈ r.2, p ∈ l := by
  induction l generalizing r with
  | nil => simp [takePending] at h
  | cons q qs ih =>
      simp only [takePending] at h
      by_cases hq : q.1 = name
      · rw [if_pos hq] at h
        injection h with h
        subst h
        constructor
        · rw [← hq]
          exact List.mem_cons_self _ _
        · intro p hp
          exact List.mem_cons_of_mem _ hp
      · rw [if_neg hq] at h
        cases hr : takePending name qs with
        | none => simp [hr] at h
        | some r' =>
            simp only [hr, Option.some.injEq] at h
            subst h
            obtain ⟨h1, h2⟩ := ih r' hr
            constructor
            · exact List.mem_cons_of_mem _ h1
            · intro p hp
              rcases List.mem_cons.mp hp with hp | hp
              · subst hp
                exact List.mem_cons_self _ _
              · exact List.mem_cons_of_mem _ (h2 p hp)

/-- Recorder invariant: pending start clocks never exceed the current clock,
and all recorded latencies are non-negative. -/
def RecInv (s : RecState) : Prop :=
  (∀ p ∈ s.pending, p.2 ≤ s.clock) ∧ ∀ st ∈ s.steps, 0 ≤ st.latency_ms

/-- One recorder transition preserves the invariant. -/
theorem recStep_inv (s : RecState) (e : RecEvent) (h : RecInv s) :
    RecInv (recStep s e) := by
  obtain ⟨hp, hs⟩ := h
  cases e with
  | tick d =>
      refine ⟨?_, hs⟩
      intro p hpm
      exact le_trans (hp p hpm) (Nat.le_add_right _ _)
  | start n =>
      refine ⟨?_, hs⟩
      intro p hpm
      rcases List.mem_cons.mp hpm with hpm | hpm
      · subst hpm
        exact Nat.le_refl _
      · exact hp p hpm
  | stop n =>
      simp only [recStep]
      cases htp : takePending n s.pending with
      | none => exact ⟨hp, hs⟩
      | some r =>
          obtain ⟨hmem, hsub⟩ := takePending_spec n s.pending r htp
          refine ⟨?_, ?_⟩
          · intro p hpm
            exact hp p (hsub p hpm)
          · intro st hst
            rcases List.mem_cons.mp hst with hst | hst
            · subst hst
              have hr1 := hp (n, r.1) hmem
              show (0 : Int) ≤ (s.clock : Int) - (r.1 : Int)
              omega
            · exact hs st hst

/-- Running the recorder preserves the invariant. -/
theorem recRun_inv (s : RecState) (events : List RecEvent) (h : RecInv s) :
    RecInv (recRun s events) := by
  induction events generalizing s with
  | nil => exact h
  | cons e es ih => exact ih (recStep s e) (recStep_inv s e h)

/-! Claim theorems. -/

/-- C1 (counterexample to the claim as stated): the observability structure
does not consist of exactly the six fields short_term_memory,
long_term_memory, semantic_memory, feedback_memory, token_usage and
request_trace: the code's `ObservabilityData` also carries `request_id`
(consumed by `MemoryDashboard`), so two values can agree field-for-field on
all six and still differ. -/
theorem observability_six_fields_not_exhaustive :
    (sampleObs "a").short_term_memory = (sampleObs "b").short_term_memory ∧
    (sampleObs "a").long_term_memory = (sampleObs "b").long_term_memory ∧
    (sampleObs "a").semantic_memory = (sampleObs "b").semantic_memory ∧
    (sampleObs "a").feedback_memory = (sampleObs "b").feedback_memory ∧
    (sampleObs "a").token_usage = (sampleObs "b").token_usage ∧
    (sampleObs "a").request_trace = (sampleObs "b").request_trace ∧
    sampleObs "a" ≠ sampleObs "b" := by
  refine ⟨rfl, rfl, rfl, rfl, rfl, rfl, ?_⟩
  decide

/-- C1 (amended): the observability structure consists, field-for-field, of
exactly seven fields — `request_id` plus short_term_memory, long_term_memory,
semantic_memory, feedback_memory, token_usage, request_trace — each shaped as
in the data model: agreement on those seven fields forces equality. -/
theorem observability_seven_fields_exhaustive (a b : ObservabilityData)
    (h0 : a.request_id = b.request_id)
    (h1 : a.short_term_memory = b.short_term_memory)
    (h2 : a.long_term_memory = b.long_term_memory)
    (h3 : a.semantic_memory = b.semantic_memory)
    (h4 : a.feedback_memory = b.feedback_memory)
    (h5 : a.token_usage = b.token_usage)
    (h6 : a.request_trace = b.request_trace) : a = b := by
  cases a
  cases b
  simp_all

/-- C1 witness: the seven-field extensionality applied at a concrete value. -/
theorem observability_seven_fields_exhaustive_witness :
    sampleObs "r1" = sampleObs "r1" :=
  observability_seven_fields_exhaustive (sampleObs "r1") (sampleObs "r1")
    rfl rfl rfl rfl rfl rfl rfl

/-- C7: a message whose text is empty or whitespace-only is rejected
immediately: the `handleSendMessage` guard issues no API call (so no memory
layer is queried and no model call results) and leaves the application state
unmutated, and the spec-modelled backend validation classifies such input as
a `ValidationFailure` (no retry). -/
theorem empty_message_rejected (st : AppState) (content : String)
    (apiResult : Except Unit ChatMessageResponse) (idNow ts : String)
    (h : (jsTrim content).isEmpty = true) :
    handleSendMessage st content apiResult idNow ts = (st, false) ∧
    validateTurn content = .error .emptyMessage := by
  constructor
  · simp [handleSendMessage, h]
  · simp [validateTurn, h]

/-- C7 witness at a whitespace-only message. -/
theorem empty_message_rejected_witness :
    (jsTrim "   ").isEmpty = true ∧
    (handleSendMessage emptyAppState "   " (.error ()) "1" "t" =
      (emptyAppState, false) ∧
     validateTurn "   " = .error .emptyMessage) :=
  ⟨by decide, empty_message_rejected emptyAppState "   " (.error ()) "1" "t" (by decide)⟩

/-- C8: when `chatApi.sendMessage` rejects, `handleSendMessage` leaves
`conversationId` and `observability` unchanged, keeps the already-appended
user message, appends exactly one assistant message with the fixed apology
text, and resets `isLoading` to false; on the success path `isLoading` is
also reset to false. -/
theorem handleSendMessage_error_path (st : AppState) (content idNow ts : String)
    (resp : ChatMessageResponse) (h : (jsTrim content).isEmpty = false) :
    handleSendMessage st content (.error ()) idNow ts =
      ({ messages := st.messages ++
            [mkUserMessage content idNow ts, mkErrorMessage idNow ts],
         conversationId := st.conversationId,
         isLoading := false,
         observability := st.observability }, true) ∧
    (mkErrorMessage idNow ts).content =
      "Sorry, something went wrong. Please try again." ∧
    (mkErrorMessage idNow ts).role = .assistant ∧
    (handleSendMessage st content (.ok resp) idNow ts).1.isLoading = false := by
  refine ⟨?_, rfl, rfl, ?_⟩
  · simp [handleSendMessage, h]
  · simp [handleSendMessage, h]

/-- C8 witness at a concrete failing request. -/
theorem handleSendMessage_error_path_witness :
    (jsTrim "hi").isEmpty = false ∧
    (handleSendMessage emptyAppState "hi" (.error ()) "1" "t" =
      ({ messages := emptyAppState.messages ++
            [mkUserMessage "hi" "1" "t", mkErrorMessage "1" "t"],
         conversationId := emptyAppState.conversationId,
         isLoading := false,
         observability := emptyAppState.observability }, true) ∧
     (mkErrorMessage "1" "t").content =
       "Sorry, something went wrong. Please try again." ∧
     (mkErrorMessage "1" "t").role = .assistant ∧
     (handleSendMessage emptyAppState "hi" (.ok sampleResp) "1" "t").1.isLoading =
       false) :=
  ⟨by decide,
   handleSendMessage_error_path emptyAppState "hi" "1" "t" sampleResp (by decide)⟩

/-- C9: `ChatWindow` invokes `onSendMessage` exactly when the trimmed input
is non-empty and `isLoading` is false, passing the untrimmed input and
clearing the input field; the submit button's `disabled` condition is exactly
the complement of that send condition. -/
theorem chatWindow_submit_gate (input : String) (isLoading : Bool) :
    ((handleSubmit input isLoading).1.isSome ↔
      submitDisabled input isLoading = false) ∧
    (submitDisabled input isLoading = false →
      handleSubmit input isLoading = (some input, "")) ∧
    (submitDisabled input isLoading = true →
      handleSubmit input isLoading = (none, input)) := by
  cases hE : (jsTrim input).isEmpty <;> cases isLoading <;>
    simp [handleSubmit, submitDisabled, hE]

/-- C9 witness: a sending and a blocked submission, concretely. -/
theorem chatWindow_submit_gate_witness :
    handleSubmit " hi " false = (some " hi ", "") ∧
    handleSubmit "   " false = (none, "   ") :=
  ⟨(chatWindow_submit_gate " hi " false).2.1 (by decide),
   (chatWindow_submit_gate "   " false).2.2 (by decide)⟩

/-- C10: for non-null data, `MemoryDashboard`'s token-breakdown dataset is
exactly the strictly-positive entries of `token_usage.breakdown`, with
underscores turned into spaces and each word capitalized; null data renders
only the standby placeholder. -/
theorem memoryDashboard_render_spec (d : ObservabilityData) :
    renderMemoryDashboard none = .standby ∧
    renderMemoryDashboard (some d) =
      .traceView
        ((d.token_usage.breakdown.filter (fun p => decide (0 < p.2))).map
          (fun p => (prettifyLabel p.1, p.2))) ∧
    prettifyLabel "short_term_memory" = "Short Term Memory" := by
  refine ⟨rfl, ?_, by decide⟩
  simp only [renderMemoryDashboard, tokenData]
  rw [List.filter_map]
  rfl

/-- C2: the assembled prompt's total token count never exceeds the context
window; whenever `BudgetExhaustionFailure` is not raised both the active
corrections (in full) and the current user turn are present; and the failure
is raised exactly when the mandatory floor (corrections plus current turn)
cannot fit — mandatory content is never silently truncated. -/
theorem budget_allocation_bounded (maxWindow : Nat) (inp : BudgetInput) :
    (∀ a, allocateBudget maxWindow inp = .ok a →
      a.total ≤ maxWindow ∧
      a.correctionsTokens = inp.corrections.sum ∧
      a.currentTurnTokens = inp.currentTurn) ∧
    (allocateBudget maxWindow inp = .error .budgetExhaustion ↔
      maxWindow < mandatoryFloor inp) := by
  constructor
  · intro a ha
    unfold allocateBudget at ha
    by_cases h : maxWindow < mandatoryFloor inp
    · rw [if_pos h] at ha
      simp at ha
    · rw [if_neg h] at ha
      simp only [Except.ok.injEq] at ha
      subst ha
      refine ⟨?_, rfl, rfl⟩
      have hm : mandatoryFloor inp = inp.corrections.sum + inp.currentTurn := rfl
      have h1 := takeFit_used_le (maxWindow - mandatoryFloor inp) inp.shortTerm
      by_cases hp : inp.profile ≤
          maxWindow - mandatoryFloor inp -
            (takeFit (maxWindow - mandatoryFloor inp) inp.shortTerm).2
      · simp only [Allocation.total, if_pos hp]
        have h2 := takeFit_used_le
          (maxWindow - mandatoryFloor inp -
            (takeFit (maxWindow - mandatoryFloor inp) inp.shortTerm).2 -
              inp.profile) inp.semantic
        omega
      · simp only [Allocation.total, if_neg hp]
        have h2 := takeFit_used_le
          (maxWindow - mandatoryFloor inp -
            (takeFit (maxWindow - mandatoryFloor inp) inp.shortTerm).2 - 0)
          inp.semantic
        omega
  · constructor
    · intro he
      by_contra hcon
      unfold allocateBudget at he
      rw [if_neg hcon] at he
      simp at he
    · intro h
      unfold allocateBudget
      rw [if_pos h]

/-- Concrete budget input used by the C2 witness. -/
def inpEx : BudgetInput :=
  { corrections := [2, 3], currentTurn := 4, shortTerm := [5, 6], profile := 7,
    semantic := [8, 9, 10] }

/-- The allocation produced for `inpEx` under a window of 30 tokens. -/
def allocEx : Allocation :=
  { correctionsTokens := 5, currentTurnTokens := 4, shortTermTokens := 11,
    profileTokens := 7, semanticTokens := 0, shortTermCount := 2,
    profileIncluded := true, semanticCount := 0 }

/-- C2 witness: a successful allocation within budget and a window below the
mandatory floor raising the failure. -/
theorem budget_allocation_bounded_witness :
    (allocEx.total ≤ 30 ∧ allocEx.correctionsTokens = inpEx.corrections.sum ∧
      allocEx.currentTurnTokens = inpEx.currentTurn) ∧
    allocateBudget 8 inpEx = .error .budgetExhaustion :=
  ⟨(budget_allocation_bounded 30 inpEx).1 allocEx (by rfl),
   (budget_allocation_bounded 8 inpEx).2.mpr (by decide)⟩

/-- C3: for every conversation and any sequence of appends from the empty
store, the live buffer returned by `window` holds at most `maxTurns` turns;
and whenever an append would exceed the cap, the oldest
`(length - maxTurns)` turns are removed from the live sequence and every
removed turn's content is folded into the rolling summary. -/
theorem shortTermStore_buffer_bounded (maxTurns : Nat)
    (ops : List (String × Turn)) (c : String) (cb : ConversationBuffer)
    (t turn : Turn) (hN : maxTurns < cb.buffer.length + 1)
    (hmem : turn ∈ (cb.buffer ++ [t]).take (cb.buffer.length + 1 - maxTurns)) :
    (window (runAppends maxTurns emptyStore ops) c).buffer.length ≤ maxTurns ∧
    (appendTurn maxTurns cb t).buffer =
      (cb.buffer ++ [t]).drop (cb.buffer.length + 1 - maxTurns) ∧
    turn.content.data <:+: (((appendTurn maxTurns cb t).summary).getD "").data := by
  have hlen : (cb.buffer ++ [t]).length = cb.buffer.length + 1 := by simp
  have hcond : maxTurns < (cb.buffer ++ [t]).length := by omega
  refine ⟨?_, ?_, ?_⟩
  · exact runAppends_window_le maxTurns emptyStore (fun c' => Nat.zero_le _) ops c
  · unfold appendTurn
    rw [if_pos hcond, hlen]
  · unfold appendTurn
    rw [if_pos hcond]
    have hmem' : turn ∈
        (cb.buffer ++ [t]).take ((cb.buffer ++ [t]).length - maxTurns) := by
      rw [hlen]
      exact hmem
    exact content_infix_foldSummary cb.summary _ turn hmem'

/-- Concrete turns used by witnesses. -/
def tA : Turn :=
  { id := "1", role := "user", content := "hello", token_count := 1,
    created_at := 0, included_in_prompt := true }

/-- Second concrete turn used by witnesses. -/
def tB : Turn :=
  { id := "2", role := "assistant", content := "world", token_count := 1,
    created_at := 1, included_in_prompt := true }

/-- A buffer already at its cap of one turn. -/
def cbEx : ConversationBuffer := { buffer := [tA], summary := none }

/-- C3 witness: appending an eleventh-style overflow turn at cap 1 keeps the
live buffer bounded and folds the evicted content into the summary. -/
theorem shortTermStore_buffer_bounded_witness :
    (window (runAppends 1 emptyStore [("c", tA), ("c", tB)]) "c").buffer.length ≤ 1 ∧
    (appendTurn 1 cbEx tB).buffer =
      (cbEx.buffer ++ [tB]).drop (cbEx.buffer.length + 1 - 1) ∧
    tA.content.data <:+: (((appendTurn 1 cbEx tB).summary).getD "").data :=
  shortTermStore_buffer_bounded 1 [("c", tA), ("c", tB)] "c" cbEx tB tA
    (by decide) (by decide)

/-- C4: every record returned by `semanticQuery` belongs to the requested
user and has similarity at or above the threshold, the result is ordered by
descending similarity with ties broken by `created_at` descending, and an
empty result is a valid outcome. -/
theorem semanticQuery_spec (store : List SemanticRecord) (user : String)
    (sim : SemanticRecord → ℚ) (top_k : Nat) (threshold : ℚ)
    (r : SemanticRecord) (hr : r ∈ semanticQuery store user sim top_k threshold) :
    (r.user_id = user ∧ threshold ≤ sim r) ∧
    (semanticQuery store user sim top_k threshold).Sorted (RankedAbove sim) ∧
    semanticQuery [] user sim top_k threshold = [] := by
  refine ⟨?_, ?_, by simp [semanticQuery, List.insertionSort]⟩
  · have h1 : r ∈ (store.filter
        (fun s => s.user_id == user && decide (threshold ≤ sim s))).insertionSort
          (RankedAbove sim) := (List.take_sublist _ _).subset hr
    have h2 : r ∈ store.filter
        (fun s => s.user_id == user && decide (threshold ≤ sim s)) :=
      (List.mem_insertionSort _).mp h1
    have h3 := List.mem_filter.mp h2
    simpa using h3.2
  · exact List.Pairwise.sublist (List.take_sublist _ _)
      (List.sorted_insertionSort _ _)

/-- Sample semantic record of user u, similarity 8 on a 0..10 scale. -/
def recB : SemanticRecord :=
  { user_id := "u", content := "weather", metadata := [], embedding := [8],
    created_at := 3 }

/-- Sample semantic record of user u, similarity 9 on a 0..10 scale. -/
def recA : SemanticRecord :=
  { user_id := "u", content := "climate", metadata := [], embedding := [9],
    created_at := 5 }

/-- Sample semantic record of user u below the threshold. -/
def recC : SemanticRecord :=
  { user_id := "u", content := "noise", metadata := [], embedding := [1],
    created_at := 9 }

/-- Sample semantic record of a different user. -/
def recD : SemanticRecord :=
  { user_id := "v", content := "other", metadata := [], embedding := [10],
    created_at := 1 }

/-- Similarity used by the C4 witness: the head coordinate of the embedding
(standing for a fixed query embedding's inner product). -/
def simEx (r : SemanticRecord) : ℚ := r.embedding.headD 0

/-- Sample semantic store. -/
def storeEx : List SemanticRecord := [recB, recD, recA, recC]

/-- C4 witness at a concrete store, user and similarity (threshold 7 on the
same 0..10 scale as the sample similarities). -/
theorem semanticQuery_spec_witness :
    (recA.user_id = "u" ∧ (7 : ℚ) ≤ simEx recA) ∧
    (semanticQuery storeEx "u" simEx 5 7).Sorted (RankedAbove simEx) ∧
    semanticQuery [] "u" simEx 5 7 = [] :=
  semanticQuery_spec storeEx "u" simEx 5 7 recA (by decide)

/-- C5: `detect_and_store` yields a stored correction exactly when the turn
text opens with the fixed marker "Incorrect:", with the payload drawn from
the remainder of the turn, and yields null otherwise; on the scenario message
the stored `correction_text` contains "My name is Alice". -/
theorem feedback_detect_spec (text : String) (now : Nat)
    (store : List Correction) :
    ((detectCorrection text now).isSome =
      correctionMarker.data.isPrefixOf text.data) ∧
    (∀ c, detectCorrection text now = some c →
      c.trigger_excerpt = text ∧
      c.correction_text.data <:+: text.data ∧
      detect_and_store store text now = (some c, store ++ [c])) ∧
    (text = "Incorrect: You called me Bob. My name is Alice." →
      ∀ c, detectCorrection text now = some c →
        "My name is Alice".data <:+: c.correction_text.data) := by
  refine ⟨?_, ?_, ?_⟩
  · by_cases h : correctionMarker.data.isPrefixOf text.data <;>
      simp [detectCorrection, h]
  · intro c hc
    have hstore : detect_and_store store text now = (some c, store ++ [c]) := by
      simp [detect_and_store, hc]
    unfold detectCorrection at hc
    by_cases h : correctionMarker.data.isPrefixOf text.data = true
    · rw [if_pos h] at hc
      injection hc with hc
      subst hc
      refine ⟨rfl, ?_, hstore⟩
      exact List.IsInfix.trans (trimChars_isInfixOfOrig _)
        (List.IsSuffix.isInfix (List.drop_suffix _ _))
    · rw [if_neg h] at hc
      cases hc
  · intro htext c hc
    subst htext
    rw [show detectCorrection "Incorrect: You called me Bob. My name is Alice." now =
        some { trigger_excerpt := "Incorrect: You called me Bob. My name is Alice.",
               correction_text := "You called me Bob. My name is Alice.",
               created_at := now } from rfl] at hc
    injection hc with hc
    subst hc
    show "My name is Alice".data <:+:
      ("You called me Bob. My name is Alice." : String).data
    decide

/-- The scenario message of spec section 8. -/
def msgEx : String := "Incorrect: You called me Bob. My name is Alice."

/-- The correction detected from the scenario message at time 0. -/
def corrEx : Correction :=
  { trigger_excerpt := msgEx,
    correction_text := "You called me Bob. My name is Alice.", created_at := 0 }

/-- C5 witness at the scenario message. -/
theorem feedback_detect_spec_witness :
    (corrEx.trigger_excerpt = msgEx ∧
     corrEx.correction_text.data <:+: msgEx.data ∧
     detect_and_store [] msgEx 0 = (some corrEx, [corrEx])) ∧
    "My name is Alice".data <:+: corrEx.correction_text.data :=
  ⟨(feedback_detect_spec msgEx 0 []).2.1 corrEx (by decide),
   (feedback_detect_spec msgEx 0 []).2.2 rfl corrEx (by decide)⟩

/-- C6: in every finalized trace, each recorded step latency is non-negative
and `total_latency_ms` equals, uniformly for every request, the sum of the
recorded per-step latencies. -/
theorem requestTrace_consistent (c0 : Nat) (events : List RecEvent)
    (st : TraceStep)
    (hst : st ∈ (snapshot (recRun (initRecState c0) events)).steps) :
    0 ≤ st.latency_ms ∧
    (snapshot (recRun (initRecState c0) events)).total_latency_ms =
      ((snapshot (recRun (initRecState c0) events)).steps.map
        TraceStep.latency_ms).sum := by
  have hinv : RecInv (recRun (initRecState c0) events) := by
    refine recRun_inv _ _ ⟨?_, ?_⟩ <;> intro x hx <;> simp [initRecState] at hx
  constructor
  · have h1 : st ∈ (recRun (initRecState c0) events).steps := by
      have h2 := hst
      simp only [snapshot, List.mem_reverse] at h2
      exact h2
    exact hinv.2 st h1
  · simp [snapshot, List.sum_reverse]

/-- Concrete recorder run used by the C6 witness. -/
def eventsEx : List RecEvent :=
  [.start "fetch", .tick 5, .stop "fetch", .tick 2, .start "model", .tick 7,
   .stop "model"]

/-- The first step recorded by `eventsEx`. -/
def stepEx : TraceStep := { name := "fetch", latency_ms := 5 }

/-- C6 witness at a concrete recorder run. -/
theorem requestTrace_consistent_witness :
    0 ≤ stepEx.latency_ms ∧
    (snapshot (recRun (initRecState 0) eventsEx)).total_latency_ms =
      ((snapshot (recRun (initRecState 0) eventsEx)).steps.map
        TraceStep.latency_ms).sum :=
  requestTrace_consistent 0 eventsEx stepEx (by decide)

end MemoryChat
